import Mathlib

/-
Verification development for the ASI183MM spectrometer service.

The definitions below are shallow embeddings of the Python source:
  - `src/settings_manager.py` (SettingsManager: deep merge, shallow update,
    persistence of the "current" document),
  - `src/camera.py` (ASI183Camera: set_roi validation, capture_raw retry
    and polling sequence),
  - `src/spectrometer.py` (Spectrometer: dark correction, spectrum
    reduction, pixel/wavelength calibration).
Machine integers are modelled as `Nat` with explicit `% 65536` where the
source operates on unsigned 16-bit numpy arrays; floating point values are
modelled as `ℚ`; fallible code returns `Option`/`Except`; I/O and hardware
interaction is modelled by explicit state passing and event traces.
-/

namespace Spectro

/-! ## Settings layer (src/settings_manager.py)

JSON-like settings values.  A settings document is an association list of
string keys to values, mirroring a Python `dict` in insertion order: an
assignment to an existing key keeps its position, a new key is appended. -/

inductive JVal where
  | num  : Int → JVal
  | str  : String → JVal
  | bool : Bool → JVal
  | obj  : List (String × JVal) → JVal
deriving Repr

abbrev JObj := List (String × JVal)

/-- Lookup of a key in a document (Python `d[k]` / `k in d`, first match). -/
def getKey : JObj → String → Option JVal
  | [], _ => none
  | (k, v) :: rest, key => if k = key then some v else getKey rest key

/-- Python `d[k] = v`: replace the value at the first occurrence of the key,
keeping its position, or append the binding when the key is absent. -/
def setKey : JObj → String → JVal → JObj
  | [], key, v => [(key, v)]
  | (k, w) :: rest, key, v =>
    if k = key then (k, v) :: rest else (k, w) :: setKey rest key v

/-- Python `isinstance(v, dict)`. -/
def JVal.isObj : JVal → Bool
  | JVal.obj _ => true
  | _ => false

/-- The entries of a `JVal` known to be a mapping (`[]` otherwise). -/
def JVal.entries : JVal → JObj
  | JVal.obj l => l
  | _ => []

/-- Whether a key is present (Python `k in d`). -/
def hasKey (d : JObj) (k : String) : Bool := (getKey d k).isSome

/-- `SettingsManager._deep_merge(default_dict, override_dict)`:
`result = default_dict.copy()`, then for each `(k, v)` of the override, if
`k` is in the accumulated result and both `result[k]` and `v` are dicts the
two are merged recursively, otherwise `result[k] = v`. -/
def deep_merge (d : JObj) : JObj → JObj
  | [] => d
  | (k, v) :: rest =>
    let r :=
      if hasKey d k && ((getKey d k).getD (JVal.num 0)).isObj && v.isObj then
        setKey d k (JVal.obj (deep_merge ((getKey d k).getD (JVal.num 0)).entries v.entries))
      else setKey d k v
    deep_merge r rest
termination_by o => sizeOf o
decreasing_by
  · have h1 : sizeOf v.entries ≤ sizeOf v := by
      cases v <;> simp [JVal.entries]
    simp only [List.cons.sizeOf_spec, Prod.mk.sizeOf_spec]
    omega
  · simp only [List.cons.sizeOf_spec]
    omega

/-- Python `dict.update(new)`: for each `(k, v)` of `new`, `d[k] = v`.
This is a shallow, per-key update: nested dictionaries replace wholesale. -/
def dictUpdate (d : JObj) : JObj → JObj
  | [] => d
  | (k, v) :: rest => dictUpdate (setKey d k v) rest

/-! State of a `SettingsManager`: the in-memory merged tree plus the two
persisted documents (`config/default_settings.json` and
`config/current_settings.json`). -/

structure SettingsState where
  settings   : JObj
  defaultDoc : JObj
  currentDoc : JObj

/-- `SettingsManager.save_current_settings(settings)`: dump `settings` to the
current-settings file.  A successful write is modelled; an I/O failure in the
source merely logs, returns `False` and leaves the file as it was. -/
def save_current_settings (st : SettingsState) (s : JObj) : SettingsState :=
  { st with currentDoc := s }

/-- `SettingsManager.update_settings(new_settings, category)`.  With a
category, a missing category key is first created as an empty dict, then
`self.settings[category].update(new_settings)` applies a shallow per-key
update to the category subtree; if the existing category value is not a dict
Python raises (`AttributeError`), modelled as `none`.  Without a category,
`self.settings.update(new_settings)`.  Either way the full merged tree is
then persisted as the current document. -/
def update_settings (st : SettingsState) (ns : JObj) (category : Option String) :
    Option SettingsState :=
  match category with
  | some c =>
    let s0 := if (getKey st.settings c).isSome then st.settings
              else setKey st.settings c (JVal.obj [])
    match getKey s0 c with
    | some (JVal.obj sub) =>
      let s1 := setKey s0 c (JVal.obj (dictUpdate sub ns))
      some (save_current_settings { st with settings := s1 } s1)
    | _ => none
  | none =>
    let s1 := dictUpdate st.settings ns
    some (save_current_settings { st with settings := s1 } s1)

/-! ## Camera layer (src/camera.py)

A raw frame is a 2-D matrix of unsigned 16-bit samples, modelled as a list
of rows of naturals (values `< 65536` where the bound matters). -/

abbrev Frame := List (List Nat)

/-- Static camera information relevant to `set_roi` (from
`camera.get_camera_property()`: `MaxWidth`, `MaxHeight`, `SupportedBins`). -/
structure CameraInfo where
  maxWidth : Nat
  maxHeight : Nat
  supportedBins : List Nat

/-- Errors raised by `ASI183Camera.set_roi`: `RuntimeError("Camera not
connected")` and `ValueError("Binning ... not supported ...")`. -/
inductive SetRoiErr where
  | notConnected
  | unsupportedBinning
deriving Repr, DecidableEq

/-- Hardware calls issued by `set_roi` to the SDK driver. -/
inductive RoiEv where
  | hwSetRoi (startX startY width height bins : Nat)
deriving Repr, DecidableEq

/-- `ASI183Camera.set_roi(start_x, start_y, width, height, binning)`:
raise if not connected; default `width`/`height` to the sensor maxima;
raise `ValueError` if the binning is not in `SupportedBins`; only then issue
the driver ROI call.  Returns the trace of driver calls together with the
raised error, if any. -/
def camera_set_roi (connected : Bool) (info : CameraInfo) (startX startY : Nat)
    (width height : Option Nat) (binning : Nat) : List RoiEv × Option SetRoiErr :=
  if !connected then ([], some SetRoiErr.notConnected)
  else
    let w := width.getD info.maxWidth
    let h := height.getD info.maxHeight
    if binning ∉ info.supportedBins then ([], some SetRoiErr.unsupportedBinning)
    else ([RoiEv.hwSetRoi startX startY w h binning], none)

/-- SDK exposure status values (`ASI_EXP_IDLE/WORKING/SUCCESS/FAILED`). -/
inductive ExpStatus where
  | idle
  | working
  | success
  | failed
deriving Repr, DecidableEq

/-- Behaviour of the black-box SDK driver during one `capture_raw` call:
the outcome of the direct `camera.capture()` call (`none` = raises), the
statuses returned by the first and second `get_exposure_status()` polls, and
the outcome of `get_data_after_exposure()` (`none` = raises). -/
structure Driver where
  captureResult : Option Frame
  status1 : ExpStatus
  status2 : ExpStatus
  dataResult : Option Frame

/-- Observable events of the capture sequence: the direct capture attempt,
`start_exposure`, `time.sleep` (duration in seconds as written in the
source), an exposure-status poll, and `get_data_after_exposure`. -/
inductive CamEv where
  | directCapture
  | startExposure
  | sleep (seconds : ℚ)
  | pollStatus
  | getData
deriving Repr, DecidableEq

/-- `ASI183Camera.capture_raw` for a given driver behaviour and current
exposure value in microseconds.  Try `camera.capture()`; on failure fall back
to the manual sequence: `start_exposure()`, sleep `exposure/1000.0 + 0.1`,
poll `get_exposure_status()`; if the status is not `ASI_EXP_SUCCESS`, sleep
a fixed `0.3` and poll once more; then — with no further check of the status
— call `get_data_after_exposure()` and return its data (its failure
propagates).  Returns the event trace and the captured frame (`none` when
the call raises). -/
def capture_raw (d : Driver) (exposure_us : ℚ) : List CamEv × Option Frame :=
  match d.captureResult with
  | some f => ([CamEv.directCapture], some f)
  | none =>
    let waitTime := exposure_us / 1000 + 1/10
    if d.status1 = ExpStatus.success then
      ([CamEv.directCapture, CamEv.startExposure, CamEv.sleep waitTime,
        CamEv.pollStatus, CamEv.getData], d.dataResult)
    else
      ([CamEv.directCapture, CamEv.startExposure, CamEv.sleep waitTime,
        CamEv.pollStatus, CamEv.sleep (3/10), CamEv.pollStatus, CamEv.getData],
       d.dataResult)

/-! ## Calibration (src/spectrometer.py, pixel_to_wavelength / wavelength_to_pixel) -/

/-- The accumulation loop of `pixel_to_wavelength`: starting from index `i`,
add `coef * p ** i` for each remaining coefficient. -/
def polyTermSum (p : ℚ) : Nat → List ℚ → ℚ
  | _, [] => 0
  | i, c :: rest => c * p ^ i + polyTermSum p (i + 1) rest

/-- `Spectrometer.pixel_to_wavelength` at a single pixel position:
`wavelengths = Σ coef * positions ** i` over the enumerated coefficient
list. -/
def pixel_to_wavelength (coeffs : List ℚ) (p : ℚ) : ℚ :=
  polyTermSum p 0 coeffs

/-- `np.round(q).astype(int)`: numpy rounds half to even. -/
def npRound (q : ℚ) : ℤ :=
  let f := ⌊q⌋
  let r := q - f
  if r < 1/2 then f
  else if 1/2 < r then f + 1
  else if f % 2 = 0 then f else f + 1

/-- Index search used by the interpolator on its sorted abscissas: the first
index whose sample is `≥ w` (`np.searchsorted(xs, w, side="left")`; the
source's binary search agrees with this linear scan on sorted input). -/
def searchsortedLeft (xs : List ℚ) (w : ℚ) : Nat :=
  match xs with
  | [] => 0
  | x :: rest => if w ≤ x then 0 else searchsortedLeft rest w + 1

/-- Insert a sample into a list of samples sorted by abscissa. -/
def insertByFst (a : ℚ × ℚ) : List (ℚ × ℚ) → List (ℚ × ℚ)
  | [] => [a]
  | b :: rest => if a.1 ≤ b.1 then a :: b :: rest else b :: insertByFst a rest

/-- `scipy.interpolate.interp1d` sorts its samples by abscissa before
interpolating (`assume_sorted=False` is the default). -/
def sortByFst : List (ℚ × ℚ) → List (ℚ × ℚ)
  | [] => []
  | a :: rest => insertByFst a (sortByFst rest)

/-- Evaluation of the linear interpolant with extrapolation
(`interp1d(x, y, bounds_error=False, fill_value="extrapolate")` applied to
one query): locate the segment by `searchsorted`, clip the segment index to
`[1, n-1]`, and evaluate `y_lo + (w - x_lo) * (y_hi - y_lo) / (x_hi - x_lo)`. -/
def interp1dEval (pts : List (ℚ × ℚ)) (w : ℚ) : ℚ :=
  let xs := pts.map Prod.fst
  let idx := min (max (searchsortedLeft xs w) 1) (pts.length - 1)
  let lo := pts.getD (idx - 1) (0, 0)
  let hi := pts.getD idx (0, 0)
  lo.2 + (w - lo.1) * ((hi.2 - lo.2) / (hi.1 - lo.1))

/-- Failures of `wavelength_to_pixel`: the explicit
`ValueError("Wavelength calibration not set properly")` when fewer than two
coefficients are configured, and the `ValueError` that `interp1d` raises
when given fewer than two sample points. -/
inductive CalErr where
  | notSet
  | tooFewSamples
deriving Repr, DecidableEq

/-- `Spectrometer.wavelength_to_pixel` for one wavelength.  With at most one
coefficient raise `ValueError`; with exactly two coefficients compute
`(w - c0) / c1` and round — the source performs the numpy array division
with no zero-slope check (a zero `c1` silently yields a non-finite value,
never an exception; the total division of `ℚ` stands in for that sentinel);
with more coefficients build the dense table over
`np.arange(0, roi_width or 1000)` and invert by sorted linear
interpolation with extrapolation, then round to the nearest integer. -/
def wavelength_to_pixel (coeffs : List ℚ) (roiWidth : Option Nat) (w : ℚ) :
    Except CalErr Int :=
  if coeffs.length ≤ 1 then Except.error CalErr.notSet
  else if coeffs.length = 2 then
    Except.ok (npRound ((w - coeffs.getD 0 0) / coeffs.getD 1 0))
  else
    let n := match roiWidth with
      | none => 1000
      | some width => if width = 0 then 1000 else width
    if n < 2 then Except.error CalErr.tooFewSamples
    else
      let densePixels := List.range n
      let denseWavelengths :=
        densePixels.map (fun p : Nat => pixel_to_wavelength coeffs (p : ℚ))
      let pts := sortByFst (denseWavelengths.zip (densePixels.map (fun p : Nat => (p : ℚ))))
      Except.ok (npRound (interp1dEval pts w))

/-! ## Spectrum processing (src/spectrometer.py, acquire_spectrum / process_spectrum) -/

/-- numpy `shape` of a rectangular 2-D array: rows by columns. -/
def shape (f : Frame) : Nat × Nat := (f.length, f.headI.length)

/-- Unsigned 16-bit subtraction: numpy subtraction of `uint16` arrays wraps
modulo `2^16` (for samples `< 65536` this is `(a + 65536 - b) % 65536`). -/
def u16sub (a b : Nat) : Nat := (a + 65536 - b) % 65536

/-- `np.clip(x, 0, None)` on an unsigned sample. -/
def clip0 (x : Nat) : Nat := max x 0

/-- `raw_image - self.dark_frame` followed by `np.clip(..., 0, None)`,
elementwise over the rectangular frame. -/
def darkSub (raw dark : Frame) : Frame :=
  (raw.zip dark).map (fun rd => (rd.1.zip rd.2).map (fun ab => clip0 (u16sub ab.1 ab.2)))

/-- `np.mean(f, axis=0)` on a rectangular frame: for each column index, the
sum of that column over all rows divided by the number of rows. -/
def npMeanAxis0 (f : Frame) : List ℚ :=
  (List.range f.headI.length).map
    (fun j : Nat => ((f.map (fun row : List Nat => (row.getD j 0 : ℚ))).sum) / (f.length : ℚ))

/-- `np.max(f, axis=0)` on a rectangular frame: for each column index, the
maximum of that column over all rows. -/
def npMaxAxis0 (f : Frame) : List Nat :=
  (List.range f.headI.length).map
    (fun j : Nat => (f.map (fun row : List Nat => row.getD j 0)).foldr max 0)

/-- The processing-relevant state of a `Spectrometer` instance. -/
structure SpecState where
  connected : Bool
  wavelengthCoeffs : List ℚ
  roiWidth : Option Nat
  darkFrame : Option Frame
  subtractDark : Bool
  useMax : Bool

/-- The dark-correction step shared by `acquire_spectrum` and
`process_spectrum`: if dark subtraction was requested and a dark frame is
cached, subtract and clip when the shapes match, otherwise log a warning and
keep the frame uncorrected. -/
def applyDark (st : SpecState) (subtractDark : Bool) (raw : Frame) : Frame :=
  if subtractDark then
    match st.darkFrame with
    | some dark => if shape raw = shape dark then darkSub raw dark else raw
    | none => raw
  else raw

/-- The reduction and calibration steps shared by `acquire_spectrum` and
`process_spectrum`: collapse the frame per column (maximum or mean), then map
`np.arange(len(spectrum))` through `pixel_to_wavelength`. -/
def reduceFrame (st : SpecState) (useMax : Bool) (frame : Frame) : List ℚ × List ℚ :=
  let spectrum : List ℚ :=
    if useMax then (npMaxAxis0 frame).map (fun x : Nat => (x : ℚ))
    else npMeanAxis0 frame
  let wavelengths :=
    (List.range spectrum.length).map
      (fun i : Nat => pixel_to_wavelength st.wavelengthCoeffs (i : ℚ))
  (wavelengths, spectrum)

/-- `Spectrometer.process_spectrum(raw_image, subtract_dark, readout_mode)`:
raise if not connected; resolve `subtract_dark` and `readout_mode` against
the instance defaults; dark-correct; reduce; calibrate. -/
def process_spectrum (st : SpecState) (raw : Frame)
    (subtractDarkArg : Option Bool) (readoutModeArg : Option String) :
    Except String (List ℚ × List ℚ) :=
  if !st.connected then Except.error "Spectrometer not connected"
  else
    let subtractDark := subtractDarkArg.getD st.subtractDark
    let useMax := match readoutModeArg with
      | some m => m = "maximum"
      | none => st.useMax
    Except.ok (reduceFrame st useMax (applyDark st subtractDark raw))

/-- Result of `Spectrometer.acquire_spectrum`: the raw 2-D image when
`return_raw` is set, otherwise the `(wavelengths, intensities)` pair. -/
inductive AcqResult where
  | raw (frame : Frame)
  | spectrum (wavelengths : List ℚ) (intensities : List ℚ)

/-- `Spectrometer.acquire_spectrum(subtract_dark, smoothing, return_raw,
readout_mode)` given the frame the camera capture produced: raise if not
connected; resolve the optional arguments; return the captured image as is
when `return_raw` is set (before any dark correction); otherwise
dark-correct, reduce and calibrate exactly as `process_spectrum`.  The
method never assigns to the instance, so the state is returned unchanged. -/
def acquire_spectrum (st : SpecState) (captured : Frame)
    (subtractDarkArg : Option Bool) (returnRaw : Bool)
    (readoutModeArg : Option String) :
    Except String AcqResult × SpecState :=
  if !st.connected then (Except.error "Spectrometer not connected", st)
  else
    let subtractDark := subtractDarkArg.getD st.subtractDark
    let useMax := match readoutModeArg with
      | some m => m = "maximum"
      | none => st.useMax
    if returnRaw then (Except.ok (AcqResult.raw captured), st)
    else
      let wi := reduceFrame st useMax (applyDark st subtractDark captured)
      (Except.ok (AcqResult.spectrum wi.1 wi.2), st)

/-! ## Specification-side definition and concrete fixtures -/

/-- The merge rule as the specification states it, read per key: a key
absent from the override keeps the default's value; when both sides hold
nested mappings they are merged recursively; otherwise the override value
replaces the default value. -/
def mergeSpecLookup (d o : JObj) (k : String) : Option JVal :=
  match getKey o k with
  | none => getKey d k
  | some v =>
    match getKey d k, v with
    | some (JVal.obj dsub), JVal.obj osub => some (JVal.obj (deep_merge dsub osub))
    | _, _ => some v

/-- Concrete state for the C9 witness: dark subtraction enabled and a cached
dark frame whose shape matches the captured frame. -/
def exStateC9 : SpecState :=
  { connected := true, wavelengthCoeffs := [0, 1], roiWidth := some 2,
    darkFrame := some [[7, 7]], subtractDark := true, useMax := false }

/-- Concrete input state for the C8 witness. -/
def exStateC8 : SettingsState :=
  { settings := [("camera", JVal.obj [("gain", JVal.num 0), ("exposure_ms", JVal.num 100)])],
    defaultDoc := [("camera", JVal.obj [("gain", JVal.num 0), ("exposure_ms", JVal.num 100)])],
    currentDoc := [] }

/-- Resulting state for the C8 witness. -/
def exStateC8' : SettingsState :=
  { settings := [("camera", JVal.obj [("gain", JVal.num 5), ("exposure_ms", JVal.num 100)])],
    defaultDoc := [("camera", JVal.obj [("gain", JVal.num 0), ("exposure_ms", JVal.num 100)])],
    currentDoc := [("camera", JVal.obj [("gain", JVal.num 5), ("exposure_ms", JVal.num 100)])] }

/-- Concrete spectrometer state for the C4 counterexample and witness: dark
subtraction enabled with a cached one-pixel dark frame of value 10. -/
def exStateC4 : SpecState :=
  { connected := true, wavelengthCoeffs := [0, 1], roiWidth := some 1,
    darkFrame := some [[10]], subtractDark := true, useMax := false }

/-- Concrete settings state for the C10 witness. -/
def exStateC10 : SettingsState :=
  { settings := [("camera",
      JVal.obj [("roi", JVal.obj [("start_x", JVal.num 0), ("width", JVal.num 100)])])],
    defaultDoc := [], currentDoc := [] }

/-! ## Basic lookup lemmas about `setKey`/`getKey` -/

theorem getKey_setKey_self (l : JObj) (k : String) (v : JVal) :
    getKey (setKey l k v) k = some v := by
  induction l with
  | nil => simp [setKey, getKey]
  | cons hd tl ih =>
    obtain ⟨k0, v0⟩ := hd
    by_cases h : k0 = k
    · subst h
      simp [setKey, getKey]
    · simp [setKey, getKey, h, ih]

theorem getKey_setKey_ne (l : JObj) (k k' : String) (v : JVal) (h : k' ≠ k) :
    getKey (setKey l k v) k' = getKey l k' := by
  induction l with
  | nil => simp [setKey, getKey, Ne.symm h]
  | cons hd tl ih =>
    obtain ⟨k0, v0⟩ := hd
    by_cases h0 : k0 = k
    · subst h0
      simp [setKey, getKey, Ne.symm h]
    · simp [setKey, getKey, h0, ih]

theorem getKey_eq_none_of_not_mem (l : JObj) (k : String)
    (h : k ∉ l.map Prod.fst) : getKey l k = none := by
  induction l with
  | nil => rfl
  | cons hd tl ih =>
    obtain ⟨k0, v0⟩ := hd
    simp only [List.map_cons, List.mem_cons] at h
    push_neg at h
    simp [getKey, Ne.symm h.1, ih h.2]

/-! ## Claim C7 -/

/-- C7: for every binning value not contained in the camera's supported
binning set, `set_roi` on a connected camera fails with the configuration
error (`ValueError`) and no hardware ROI call is issued to the driver. -/
theorem set_roi_rejects_unsupported_binning (info : CameraInfo)
    (startX startY : Nat) (width height : Option Nat) (binning : Nat)
    (h : binning ∉ info.supportedBins) :
    camera_set_roi true info startX startY width height binning
      = ([], some SetRoiErr.unsupportedBinning) := by
  simp [camera_set_roi, h]

/-- Witness for C7: binning 3 with supported bins [1, 2, 4] is rejected
before any hardware call. -/
theorem set_roi_rejects_unsupported_binning_witness :
    3 ∉ [1, 2, 4]
    ∧ camera_set_roi true ⟨5496, 3672, [1, 2, 4]⟩ 0 0 none none 3
        = ([], some SetRoiErr.unsupportedBinning) :=
  ⟨by decide,
   set_roi_rejects_unsupported_binning ⟨5496, 3672, [1, 2, 4]⟩ 0 0 none none 3 (by decide)⟩

/-! ## Claim C9 -/

/-- C9: `acquire_spectrum` with `return_raw=True` on a connected
spectrometer returns the captured raw 2-D frame unmodified — the `return`
happens before the dark-correction, reduction and calibration steps, even
when `subtract_dark` is requested and a matching dark frame is cached — and
the instance state (in particular the cached dark frame) is unchanged. -/
theorem acquire_spectrum_return_raw (st : SpecState) (captured : Frame)
    (subtractDarkArg : Option Bool) (readoutModeArg : Option String)
    (h : st.connected = true) :
    acquire_spectrum st captured subtractDarkArg true readoutModeArg
      = (Except.ok (AcqResult.raw captured), st) := by
  simp [acquire_spectrum, h]

/-- Witness for C9: even with `subtract_dark=True` and a matching cached
dark frame, `return_raw=True` hands back the captured frame as is. -/
theorem acquire_spectrum_return_raw_witness :
    exStateC9.connected = true
    ∧ acquire_spectrum exStateC9 [[9, 3]] (some true) true none
        = (Except.ok (AcqResult.raw [[9, 3]]), exStateC9) :=
  ⟨rfl, acquire_spectrum_return_raw exStateC9 [[9, 3]] (some true) none rfl⟩

/-! ## Claim C8 -/

/-- C8: every `update_settings` call that completes (with or without a
category) mutates only the in-memory merged tree and persists exactly that
full merged tree as the "current" document; the "default" document is left
unchanged. -/
theorem update_settings_persists_current (st : SettingsState) (ns : JObj)
    (category : Option String) (st' : SettingsState)
    (h : update_settings st ns category = some st') :
    st'.currentDoc = st'.settings ∧ st'.defaultDoc = st.defaultDoc := by
  cases category with
  | none =>
    simp only [update_settings, Option.some.injEq] at h
    subst h
    exact ⟨rfl, rfl⟩
  | some c =>
    simp only [update_settings] at h
    split at h
    · simp only [Option.some.injEq] at h
      subst h
      exact ⟨rfl, rfl⟩
    · exact absurd h (by simp)

/-- Witness for C8: a category update of the gain persists the full merged
tree as "current" and leaves the default document untouched. -/
theorem update_settings_persists_current_witness :
    update_settings exStateC8 [("gain", JVal.num 5)] (some "camera") = some exStateC8'
    ∧ (exStateC8'.currentDoc = exStateC8'.settings
       ∧ exStateC8'.defaultDoc = exStateC8.defaultDoc) :=
  ⟨rfl, update_settings_persists_current exStateC8 [("gain", JVal.num 5)] (some "camera")
          exStateC8' rfl⟩

/-! ## Claim C1 -/

/-- C1 counterexample: with the linear calibration `[5, 0]` (so `c1 = 0`),
`wavelength_to_pixel` does not fail — the source performs the numpy array
division with no zero-slope check, so the call returns a numeric value
(numpy produces a non-finite quotient and rounds it, raising nothing). -/
theorem wavelength_to_pixel_zero_slope_counterexample :
    (wavelength_to_pixel [5, 0] (some 100) 7).isOk = true := by
  rfl

/-- C1 amended: `wavelength_to_pixel` raises its calibration error exactly
when fewer than two coefficients are configured; with exactly two
coefficients — including a zero `c1` — it always returns a rounded numeric
value, performing the division unchecked. -/
theorem wavelength_to_pixel_no_zero_slope_check :
    (∀ (c0 w : ℚ) (ow : Option Nat), (wavelength_to_pixel [c0, 0] ow w).isOk = true)
    ∧ (∀ (c0 w : ℚ) (ow : Option Nat),
        wavelength_to_pixel [c0] ow w = Except.error CalErr.notSet)
    ∧ (∀ (w : ℚ) (ow : Option Nat),
        wavelength_to_pixel [] ow w = Except.error CalErr.notSet) := by
  refine ⟨?_, ?_, ?_⟩ <;> intros <;> simp [wavelength_to_pixel, Except.isOk, Except.toBool]

/-! ## Claim C2 -/

/-- C2 counterexample: a stalled driver whose direct capture fails and whose
exposure-status polls never report success does not make `capture_raw` fail:
after the bounded wait-and-poll window the source calls
`get_data_after_exposure()` with no further status check, so frame data is
retrieved and returned. -/
theorem capture_raw_stalled_counterexample :
    ¬ ((capture_raw ⟨none, ExpStatus.working, ExpStatus.working, some [[1]]⟩ 100000).2 = none
       ∧ CamEv.getData
           ∉ (capture_raw ⟨none, ExpStatus.working, ExpStatus.working, some [[1]]⟩ 100000).1) := by
  decide

/-- C2 amended: when the direct capture call fails and neither
exposure-status poll reports success, `capture_raw` performs exactly one
wait of `exposure/1000 + 0.1`, one poll, one additional fixed `0.3` grace
wait and one more poll — never polling or waiting beyond that bounded
window — and then unconditionally calls `get_data_after_exposure`,
returning its outcome: the capture fails only if that retrieval itself
fails (the second poll's status is never consulted). -/
theorem capture_raw_bounded_window (d : Driver) (exposure_us : ℚ)
    (hc : d.captureResult = none)
    (h1 : d.status1 ≠ ExpStatus.success) (_h2 : d.status2 ≠ ExpStatus.success) :
    capture_raw d exposure_us
      = ([CamEv.directCapture, CamEv.startExposure,
          CamEv.sleep (exposure_us / 1000 + 1/10), CamEv.pollStatus,
          CamEv.sleep (3/10), CamEv.pollStatus, CamEv.getData], d.dataResult) := by
  simp [capture_raw, hc, h1]

/-- Witness for C2: a concrete stalled driver whose data retrieval also
fails runs the exact bounded wait-and-poll trace and ends in failure. -/
theorem capture_raw_bounded_window_witness :
    (⟨none, ExpStatus.working, ExpStatus.idle, none⟩ : Driver).captureResult = none
    ∧ (⟨none, ExpStatus.working, ExpStatus.idle, none⟩ : Driver).status1 ≠ ExpStatus.success
    ∧ (⟨none, ExpStatus.working, ExpStatus.idle, none⟩ : Driver).status2 ≠ ExpStatus.success
    ∧ capture_raw ⟨none, ExpStatus.working, ExpStatus.idle, none⟩ 100000
        = ([CamEv.directCapture, CamEv.startExposure,
            CamEv.sleep ((100000 : ℚ) / 1000 + 1/10), CamEv.pollStatus,
            CamEv.sleep (3/10), CamEv.pollStatus, CamEv.getData], none) :=
  ⟨rfl, by decide, by decide,
   capture_raw_bounded_window ⟨none, ExpStatus.working, ExpStatus.idle, none⟩ 100000
     rfl (by decide) (by decide)⟩

/-! ## Claim C4 -/

theorem u16sub_self (a : Nat) : u16sub a a = 0 := by
  unfold u16sub
  omega

theorem zipSelf_row (l : List Nat) :
    (l.zip l).map (fun ab => clip0 (u16sub ab.1 ab.2)) = List.replicate l.length 0 := by
  induction l with
  | nil => rfl
  | cons a t ih =>
    simp only [List.zip_cons_cons, List.map_cons, List.length_cons, List.replicate_succ]
    rw [u16sub_self, ih]
    rfl

theorem darkSub_self (f : Frame) :
    darkSub f f = f.map (fun row => List.replicate row.length 0) := by
  induction f with
  | nil => rfl
  | cons r t ih =>
    simp only [darkSub, List.zip_cons_cons, List.map_cons, List.map]
    rw [zipSelf_row]
    exact congrArg _ ih

theorem getD_replicate_zero (n j : Nat) : (List.replicate n (0 : Nat)).getD j 0 = 0 := by
  induction n generalizing j with
  | zero => rfl
  | succ n ih =>
    cases j with
    | zero => simp [List.replicate_succ]
    | succ j => simp [List.replicate_succ, List.getD_cons_succ, ih]

theorem foldr_max_eq_zero (l : List Nat) (h : ∀ x ∈ l, x = 0) : l.foldr max 0 = 0 := by
  induction l with
  | nil => rfl
  | cons a t ih =>
    have ha := h a (List.mem_cons_self a t)
    simp [List.foldr_cons, ha, ih (fun x hx => h x (List.mem_cons_of_mem a hx))]

/-- The intensity component of `reduceFrame` is the mode-selected per-column
reduction. -/
theorem reduceFrame_snd (st : SpecState) (u : Bool) (f : Frame) :
    (reduceFrame st u f).2
      = if u then (npMaxAxis0 f).map (fun x : Nat => (x : ℚ)) else npMeanAxis0 f := rfl

/-- The wavelength component of `reduceFrame` maps every pixel index of the
reduced spectrum through the calibration polynomial. -/
theorem reduceFrame_fst (st : SpecState) (u : Bool) (f : Frame) :
    (reduceFrame st u f).1
      = (List.range (reduceFrame st u f).2.length).map
          (fun i : Nat => pixel_to_wavelength st.wavelengthCoeffs (i : ℚ)) := rfl

theorem npMaxAxis0_darkSub_self (frame : Frame) :
    ∀ x ∈ npMaxAxis0 (darkSub frame frame), x = 0 := by
  intro x hx
  simp only [npMaxAxis0, List.mem_map] at hx
  obtain ⟨j, _, rfl⟩ := hx
  apply foldr_max_eq_zero
  intro z hz
  rw [darkSub_self] at hz
  simp only [List.map_map, List.mem_map, Function.comp] at hz
  obtain ⟨row, _, rfl⟩ := hz
  exact getD_replicate_zero _ _

theorem npMeanAxis0_darkSub_self (frame : Frame) :
    ∀ x ∈ npMeanAxis0 (darkSub frame frame), x = 0 := by
  intro x hx
  simp only [npMeanAxis0, List.mem_map] at hx
  obtain ⟨j, _, rfl⟩ := hx
  have hsum : ((darkSub frame frame).map (fun row => (row.getD j 0 : ℚ))).sum = 0 := by
    apply List.sum_eq_zero
    intro z hz
    rw [darkSub_self] at hz
    simp only [List.map_map, List.mem_map, Function.comp] at hz
    obtain ⟨row, _, rfl⟩ := hz
    rw [getD_replicate_zero]
    norm_num
  rw [hsum, zero_div]

/-- After subtracting a dark frame equal to the raw frame, every reduced
intensity is zero, in both readout modes. -/
theorem reduceFrame_darkSub_self_zero (st : SpecState) (u : Bool) (frame : Frame) :
    ∀ x ∈ (reduceFrame st u (darkSub frame frame)).2, x = 0 := by
  intro x hx
  rw [reduceFrame_snd] at hx
  cases u with
  | true =>
    rw [if_pos rfl] at hx
    rcases List.mem_map.mp hx with ⟨y, hy, hxy⟩
    rw [← hxy, npMaxAxis0_darkSub_self frame y hy]
    norm_num
  | false =>
    rw [if_neg (by simp)] at hx
    exact npMeanAxis0_darkSub_self frame x hx

/-- C4 counterexample: with raw sample 5 and dark sample 10, the source
computes the numpy `uint16` subtraction, which wraps modulo 65536 to 65531
(`np.clip(..., 0, None)` is a no-op on unsigned data) — not the claimed
`max(5 - 10, 0) = 0`. -/
theorem dark_subtraction_wraps_counterexample :
    process_spectrum exStateC4 [[5]] none none = Except.ok ([0], [65531])
    ∧ (65531 : ℚ) ≠ max ((5 : ℚ) - 10) 0 := by
  constructor
  · norm_num [process_spectrum, exStateC4, applyDark, shape, darkSub, u16sub, clip0,
      reduceFrame, npMeanAxis0, npMaxAxis0, pixel_to_wavelength, polyTermSum,
      List.range_succ]
  · rw [max_eq_right (by norm_num : (5 : ℚ) - 10 ≤ 0)]
    norm_num

/-- C4 amended: when `subtract_dark` is enabled, a dark frame is cached and
its shape equals the frame's, processing subtracts it in the frame's
unsigned 16-bit arithmetic — each entry becomes `(a + 65536 - b) % 65536`,
wrapping on underflow, with the clip at 0 a no-op — so a dark frame equal to
the raw frame still yields all-zero intensities; when the shapes differ the
correction is skipped and processing continues on the uncorrected frame; in
every case the call returns without error. -/
theorem dark_correction_behaviour :
    (∀ (st : SpecState) (frame : Frame) (w ints : List ℚ),
        st.connected = true → st.subtractDark = true → st.darkFrame = some frame →
        process_spectrum st frame none none = Except.ok (w, ints) →
        ∀ x ∈ ints, x = 0)
    ∧ (∀ (st : SpecState) (raw dark : Frame),
        st.connected = true → st.darkFrame = some dark → shape raw ≠ shape dark →
        process_spectrum st raw none none
          = Except.ok (reduceFrame st st.useMax raw))
    ∧ (∀ (st : SpecState) (raw dark : Frame),
        st.connected = true → st.subtractDark = true → st.darkFrame = some dark →
        shape raw = shape dark →
        process_spectrum st raw none none
          = Except.ok (reduceFrame st st.useMax (darkSub raw dark)))
    ∧ (∀ (a b : Nat), clip0 (u16sub a b) = (a + 65536 - b) % 65536)
    ∧ (∀ (st : SpecState) (raw : Frame) (sd : Option Bool) (rm : Option String),
        st.connected = true → (process_spectrum st raw sd rm).isOk = true) := by
  refine ⟨?_, ?_, ?_, ?_, ?_⟩
  · intro st frame w ints hc hsd hdk hok
    simp only [process_spectrum, hc, Bool.not_true, Bool.false_eq_true, if_false,
      Option.getD_none, hsd, applyDark, hdk, if_true, if_pos rfl] at hok
    have hpair : (w, ints) = reduceFrame st st.useMax (darkSub frame frame) := by
      exact (Except.ok.inj hok).symm
    have hints : ints = (reduceFrame st st.useMax (darkSub frame frame)).2 :=
      congrArg Prod.snd hpair
    rw [hints]
    exact reduceFrame_darkSub_self_zero st st.useMax frame
  · intro st raw dark hc hdk hne
    by_cases hsd : st.subtractDark
    · simp [process_spectrum, hc, hsd, applyDark, hdk, hne]
    · simp [process_spectrum, hc, hsd, applyDark, hdk]
  · intro st raw dark hc hsd hdk hsh
    simp [process_spectrum, hc, hsd, applyDark, hdk, hsh]
  · intro a b
    simp [clip0, u16sub]
  · intro st raw sd rm hc
    simp [process_spectrum, hc, Except.isOk, Except.toBool]

/-- Witness for C4: the matching-shape conjunct at the concrete state of the
counterexample — processing applies the wrapped subtraction to the cached
dark frame. -/
theorem dark_correction_behaviour_witness :
    exStateC4.connected = true
    ∧ exStateC4.subtractDark = true
    ∧ exStateC4.darkFrame = some [[10]]
    ∧ shape [[5]] = shape [[10]]
    ∧ process_spectrum exStateC4 [[5]] none none
        = Except.ok (reduceFrame exStateC4 exStateC4.useMax (darkSub [[5]] [[10]])) :=
  ⟨rfl, rfl, rfl, rfl,
   dark_correction_behaviour.2.2.1 exStateC4 [[5]] [[10]] rfl rfl rfl rfl⟩

/-! ## Claim C5 -/

theorem foldr_max_le_iff (l : List Nat) (m : Nat) :
    l.foldr max 0 ≤ m ↔ ∀ x ∈ l, x ≤ m := by
  induction l with
  | nil => simp
  | cons a t ih => simp [List.foldr_cons, max_le_iff, ih, List.forall_mem_cons]

theorem le_foldr_max (l : List Nat) (x : Nat) (hx : x ∈ l) : x ≤ l.foldr max 0 := by
  induction l with
  | nil => cases hx
  | cons a t ih =>
    simp only [List.foldr_cons]
    rcases List.mem_cons.mp hx with rfl | hx'
    · exact le_max_left _ _
    · exact le_trans (ih hx') (le_max_right _ _)

theorem map_sum_eq_range_sum (l : List (List Nat)) (g : List Nat → ℚ) :
    (l.map g).sum = ∑ i in Finset.range l.length, g (l.getD i []) := by
  induction l with
  | nil => simp
  | cons a t ih =>
    rw [List.map_cons, List.sum_cons, List.length_cons, Finset.sum_range_succ', ih]
    simp [List.getD_cons_succ, List.getD_cons_zero, add_comm]

theorem foldr_max_eq_sup (l : List (List Nat)) (j : Nat) :
    (l.map (fun row : List Nat => row.getD j 0)).foldr max 0
      = Finset.sup (Finset.range l.length) (fun i => (l.getD i []).getD j 0) := by
  apply le_antisymm
  · rw [foldr_max_le_iff]
    intro x hx
    rcases List.mem_map.mp hx with ⟨row, hrow, hfx⟩
    rcases List.mem_iff_get.mp hrow with ⟨i, hi⟩
    have hgetD : l.getD i.1 [] = l.get i := List.getD_eq_get l [] i.2
    have hle : (l.getD i.1 []).getD j 0
        ≤ Finset.sup (Finset.range l.length) (fun k => (l.getD k []).getD j 0) :=
      @Finset.le_sup ℕ ℕ _ _ (Finset.range l.length)
        (fun k => (l.getD k []).getD j 0) i.1 (Finset.mem_range.mpr i.2)
    rw [hgetD, hi] at hle
    rwa [hfx] at hle
  · apply Finset.sup_le
    intro i hi
    have hi' : i < l.length := Finset.mem_range.mp hi
    have hgetD : l.getD i [] = l.get ⟨i, hi'⟩ := List.getD_eq_get l [] hi'
    rw [hgetD]
    exact le_foldr_max _ _ (List.mem_map_of_mem _ (List.get_mem l i hi'))

theorem getD_map_range {β : Type} (n j : Nat) (g : Nat → β) (d : β) (hj : j < n) :
    ((List.range n).map g).getD j d = g j := by
  have hlen : j < ((List.range n).map g).length := by simp [hj]
  rw [List.getD_eq_get _ _ hlen, List.get_map, List.get_range]

/-- C5: spectrum reduction collapses a rectangular 2-D frame per column —
Average mode yields, for each column index, the sum of that column over all
rows divided by the row count (the per-column mean); Maximum mode yields the
per-column supremum over all rows; and `process_spectrum` reproduces the
claim's examples, Average over rows all equal to [1,2,3] giving [1,2,3] and
Maximum over [[1,2,3],[4,5,6]] giving [4,5,6]. -/
theorem reduction_modes :
    (∀ (f : Frame) (W j : Nat), (∀ row ∈ f, row.length = W) → f ≠ [] → j < W →
        (npMeanAxis0 f).getD j 0
          = (∑ i in Finset.range f.length, ((f.getD i []).getD j 0 : ℚ)) / (f.length : ℚ))
    ∧ (∀ (f : Frame) (W j : Nat), (∀ row ∈ f, row.length = W) → f ≠ [] → j < W →
        (npMaxAxis0 f).getD j 0
          = Finset.sup (Finset.range f.length) (fun i => (f.getD i []).getD j 0))
    ∧ (∀ st : SpecState, st.connected = true →
        (process_spectrum st [[1, 2, 3], [1, 2, 3]] (some false) (some "average")).map Prod.snd
          = Except.ok [1, 2, 3])
    ∧ (∀ st : SpecState, st.connected = true →
        (process_spectrum st [[1, 2, 3], [4, 5, 6]] (some false) (some "maximum")).map Prod.snd
          = Except.ok [4, 5, 6]) := by
  have hhead : ∀ (f : Frame) (W : Nat), (∀ row ∈ f, row.length = W) → f ≠ [] →
      f.headI.length = W := by
    intro f W hrect hne
    cases f with
    | nil => exact absurd rfl hne
    | cons a t => exact hrect a (List.mem_cons_self a t)
  refine ⟨?_, ?_, ?_, ?_⟩
  · intro f W j hrect hne hj
    rw [npMeanAxis0, getD_map_range _ _ _ _ (by rw [hhead f W hrect hne]; exact hj)]
    rw [map_sum_eq_range_sum]
  · intro f W j hrect hne hj
    rw [npMaxAxis0, getD_map_range _ _ _ _ (by rw [hhead f W hrect hne]; exact hj)]
    rw [foldr_max_eq_sup]
  · intro st hc
    have : process_spectrum st [[1, 2, 3], [1, 2, 3]] (some false) (some "average")
        = Except.ok (reduceFrame st false [[1, 2, 3], [1, 2, 3]]) := by
      simp [process_spectrum, hc, applyDark]
    rw [this]
    have hsnd : (reduceFrame st false [[1, 2, 3], [1, 2, 3]]).2 = [1, 2, 3] := by
      rw [reduceFrame_snd, if_neg (by simp)]
      norm_num [npMeanAxis0, List.range_succ]
    simp [Except.map, hsnd]
  · intro st hc
    have : process_spectrum st [[1, 2, 3], [4, 5, 6]] (some false) (some "maximum")
        = Except.ok (reduceFrame st true [[1, 2, 3], [4, 5, 6]]) := by
      simp [process_spectrum, hc, applyDark]
    rw [this]
    have hsnd : (reduceFrame st true [[1, 2, 3], [4, 5, 6]]).2 = [4, 5, 6] := by
      rw [reduceFrame_snd, if_pos rfl]
      norm_num [npMaxAxis0, List.range_succ]
    simp [Except.map, hsnd]

/-- Witness for C5: the Maximum-mode conjunct evaluated on the claim's
example frame [[1,2,3],[4,5,6]] at column 1. -/
theorem reduction_modes_witness :
    (∀ row ∈ [[1, 2, 3], [4, 5, 6]], row.length = 3)
    ∧ ([[1, 2, 3], [4, 5, 6]] : Frame) ≠ []
    ∧ 1 < 3
    ∧ (npMaxAxis0 [[1, 2, 3], [4, 5, 6]]).getD 1 0
        = Finset.sup (Finset.range ([[1, 2, 3], [4, 5, 6]] : Frame).length)
            (fun i => (([[1, 2, 3], [4, 5, 6]] : Frame).getD i []).getD 1 0) :=
  ⟨by decide, by decide, by decide,
   reduction_modes.2.1 [[1, 2, 3], [4, 5, 6]] 3 1 (by decide) (by decide) (by decide)⟩

/-! ## Claim C6 -/

/-- One step of the `_deep_merge` loop over the override entries. -/
theorem deep_merge_cons (d : JObj) (k0 : String) (v0 : JVal) (rest : JObj) :
    deep_merge d ((k0, v0) :: rest)
      = deep_merge
          (if hasKey d k0 && ((getKey d k0).getD (JVal.num 0)).isObj && v0.isObj then
            setKey d k0
              (JVal.obj (deep_merge ((getKey d k0).getD (JVal.num 0)).entries v0.entries))
          else setKey d k0 v0) rest := by
  rw [deep_merge]

/-- C6: `_deep_merge` gives precedence to the override ("current") tree on
every key, by the recursive per-key rule of `mergeSpecLookup`; and the
claim's concrete example merges as stated. -/
theorem deep_merge_current_wins :
    (∀ (d o : JObj), (o.map Prod.fst).Nodup →
        ∀ k, getKey (deep_merge d o) k = mergeSpecLookup d o k)
    ∧ deep_merge
        [("camera", JVal.obj [("gain", JVal.num 0), ("exposure_ms", JVal.num 100)])]
        [("camera", JVal.obj [("gain", JVal.num 5)])]
      = [("camera", JVal.obj [("gain", JVal.num 5), ("exposure_ms", JVal.num 100)])] := by
  constructor
  · intro d o
    induction o generalizing d with
    | nil =>
      intro _ k
      simp [deep_merge, mergeSpecLookup, getKey]
    | cons hd rest ih =>
      obtain ⟨k0, v0⟩ := hd
      intro hnd k
      rw [List.map_cons, List.nodup_cons] at hnd
      obtain ⟨hk0, hnd'⟩ := hnd
      rw [deep_merge_cons]
      by_cases hk : k = k0
      · subst hk
        have hrest : getKey rest k = none := getKey_eq_none_of_not_mem rest k hk0
        rcases hgd : getKey d k with _ | vd
        · rw [ih _ hnd']
          simp [mergeSpecLookup, getKey, hrest, hgd, getKey_setKey_self,
            hasKey, JVal.isObj, JVal.entries]
        · cases vd <;> cases v0 <;>
          · rw [ih _ hnd']
            simp [mergeSpecLookup, getKey, hrest, hgd, getKey_setKey_self,
              hasKey, JVal.isObj, JVal.entries]
      · rcases hgd : getKey d k0 with _ | vd
        · rw [ih _ hnd']
          rcases hgr : getKey rest k with _ | v
          · simp [mergeSpecLookup, getKey, Ne.symm hk, hgr, hgd,
              getKey_setKey_ne _ _ _ _ hk, hasKey, JVal.isObj, JVal.entries]
          · simp [mergeSpecLookup, getKey, Ne.symm hk, hgr, hgd,
              getKey_setKey_ne _ _ _ _ hk, hasKey, JVal.isObj, JVal.entries]
        · cases vd <;> cases v0 <;>
          · rw [ih _ hnd']
            rcases hgr : getKey rest k with _ | v
            · simp [mergeSpecLookup, getKey, Ne.symm hk, hgr, hgd,
                getKey_setKey_ne _ _ _ _ hk, hasKey, JVal.isObj, JVal.entries]
            · simp [mergeSpecLookup, getKey, Ne.symm hk, hgr, hgd,
                getKey_setKey_ne _ _ _ _ hk, hasKey, JVal.isObj, JVal.entries]
  · simp only [deep_merge_cons]
    simp [deep_merge, hasKey, getKey, setKey, JVal.isObj, JVal.entries]

/-- Witness for C6: the per-key rule applied to the claim's example at key
"camera". -/
theorem deep_merge_current_wins_witness :
    (([("camera", JVal.obj [("gain", JVal.num 5)])].map Prod.fst).Nodup)
    ∧ getKey (deep_merge
          [("camera", JVal.obj [("gain", JVal.num 0), ("exposure_ms", JVal.num 100)])]
          [("camera", JVal.obj [("gain", JVal.num 5)])]) "camera"
        = mergeSpecLookup
            [("camera", JVal.obj [("gain", JVal.num 0), ("exposure_ms", JVal.num 100)])]
            [("camera", JVal.obj [("gain", JVal.num 5)])] "camera" :=
  ⟨by simp, deep_merge_current_wins.1
      [("camera", JVal.obj [("gain", JVal.num 0), ("exposure_ms", JVal.num 100)])]
      [("camera", JVal.obj [("gain", JVal.num 5)])] (by simp) "camera"⟩

/-! ## Claim C10 -/

/-- C10: with a category, `update_settings` applies the supplied pairs to
the category subtree by the shallow per-key rule of `dict.update` — an
override key's value replaces the existing value outright, so when both are
nested mappings the supplied mapping replaces the existing one wholesale
(contrast the recursive `deep_merge` on the same example, which would keep
the sibling key). -/
theorem update_settings_category_shallow :
    (∀ (d n : JObj), (n.map Prod.fst).Nodup → ∀ k,
        getKey (dictUpdate d n) k
          = match getKey n k with
            | some v => some v
            | none => getKey d k)
    ∧ (∀ (st : SettingsState) (c : String) (sub ns : JObj),
        getKey st.settings c = some (JVal.obj sub) →
        (update_settings st ns (some c)).map (fun s => getKey s.settings c)
          = some (some (JVal.obj (dictUpdate sub ns))))
    ∧ getKey (dictUpdate
          [("roi", JVal.obj [("start_x", JVal.num 0), ("width", JVal.num 100)])]
          [("roi", JVal.obj [("start_x", JVal.num 5)])]) "roi"
        = some (JVal.obj [("start_x", JVal.num 5)])
    ∧ getKey (deep_merge
          [("roi", JVal.obj [("start_x", JVal.num 0), ("width", JVal.num 100)])]
          [("roi", JVal.obj [("start_x", JVal.num 5)])]) "roi"
        = some (JVal.obj [("start_x", JVal.num 5), ("width", JVal.num 100)]) := by
  refine ⟨?_, ?_, rfl, ?_⟩
  · intro d n
    induction n generalizing d with
    | nil =>
      intro _ k
      simp [dictUpdate, getKey]
    | cons hd rest ih =>
      obtain ⟨k0, v0⟩ := hd
      intro hnd k
      rw [List.map_cons, List.nodup_cons] at hnd
      obtain ⟨hk0, hnd'⟩ := hnd
      simp only [dictUpdate]
      rw [ih _ hnd']
      by_cases hk : k = k0
      · subst hk
        have hrest : getKey rest k = none := getKey_eq_none_of_not_mem rest k hk0
        simp [getKey, hrest, getKey_setKey_self]
      · rcases hgr : getKey rest k with _ | v
        · simp [getKey, Ne.symm hk, hgr, getKey_setKey_ne _ _ _ _ hk]
        · simp [getKey, Ne.symm hk, hgr]
  · intro st c sub ns hc
    simp [update_settings, hc, save_current_settings, getKey_setKey_self]
  · simp only [deep_merge_cons]
    simp [deep_merge, hasKey, getKey, setKey, JVal.isObj, JVal.entries]

/-- Witness for C10: a category update of "camera" replaces its subtree by
the shallow per-key update of the supplied pairs. -/
theorem update_settings_category_shallow_witness :
    getKey exStateC10.settings "camera"
      = some (JVal.obj [("roi", JVal.obj [("start_x", JVal.num 0), ("width", JVal.num 100)])])
    ∧ (update_settings exStateC10 [("roi", JVal.obj [("start_x", JVal.num 5)])]
         (some "camera")).map (fun s => getKey s.settings "camera")
        = some (some (JVal.obj (dictUpdate
            [("roi", JVal.obj [("start_x", JVal.num 0), ("width", JVal.num 100)])]
            [("roi", JVal.obj [("start_x", JVal.num 5)])]))) :=
  ⟨rfl, update_settings_category_shallow.2.1 exStateC10 "camera"
      [("roi", JVal.obj [("start_x", JVal.num 0), ("width", JVal.num 100)])]
      [("roi", JVal.obj [("start_x", JVal.num 5)])] rfl⟩

/-! ## Claim C3 -/

theorem npRound_intCast (z : Int) : npRound (z : ℚ) = z := by
  norm_num [npRound, Int.floor_intCast]

theorem npRound_natCast (p : Nat) : npRound (p : ℚ) = (p : Int) := by
  have h := npRound_intCast (p : Int)
  rwa [Int.cast_natCast] at h

theorem insertByFst_cons_of_lt (a : ℚ × ℚ) (l : List (ℚ × ℚ))
    (h : ∀ b ∈ l, a.1 < b.1) : insertByFst a l = a :: l := by
  cases l with
  | nil => rfl
  | cons b rest =>
    simp [insertByFst, le_of_lt (h b (List.mem_cons_self b rest))]

theorem sortByFst_of_pairwise (l : List (ℚ × ℚ))
    (h : l.Pairwise (fun x y => x.1 < y.1)) : sortByFst l = l := by
  induction l with
  | nil => rfl
  | cons a rest ih =>
    rw [List.pairwise_cons] at h
    simp only [sortByFst]
    rw [ih h.2, insertByFst_cons_of_lt a rest h.1]

theorem searchsortedLeft_get (xs : List ℚ) (hx : xs.Pairwise (· < ·))
    (i : Nat) (hi : i < xs.length) :
    searchsortedLeft xs (xs.get ⟨i, hi⟩) = i := by
  induction xs generalizing i with
  | nil => simp at hi
  | cons x rest ih =>
    rw [List.pairwise_cons] at hx
    cases i with
    | zero => simp [searchsortedLeft]
    | succ j =>
      have hj : j < rest.length := by simpa using hi
      have hlt : x < rest.get ⟨j, hj⟩ := hx.1 _ (rest.get_mem j hj)
      have hih := ih hx.2 j hj
      simp only [List.get_cons_succ, searchsortedLeft]
      rw [if_neg (not_le.mpr hlt)]
      exact congrArg (fun t => t + 1) hih

theorem pairwise_fst_zip (xs ys : List ℚ) (h : xs.Pairwise (· < ·)) :
    (xs.zip ys).Pairwise (fun a b => a.1 < b.1) := by
  induction xs generalizing ys with
  | nil => simp
  | cons x xt ih =>
    cases ys with
    | nil => simp
    | cons y yt =>
      rw [List.pairwise_cons] at h
      rw [List.zip_cons_cons, List.pairwise_cons]
      refine ⟨?_, ih yt h.2⟩
      intro b hb
      obtain ⟨b1, b2⟩ := b
      exact h.1 b1 (List.mem_zip hb).1

/-- Evaluating the interpolant at one of its own (sorted, duplicate-free)
sample abscissas returns exactly the corresponding ordinate. -/
theorem interp1dEval_node (pts : List (ℚ × ℚ))
    (hx : pts.Pairwise (fun a b => a.1 < b.1)) (h2 : 2 ≤ pts.length)
    (i : Nat) (hi : i < pts.length) :
    interp1dEval pts (pts.get ⟨i, hi⟩).1 = (pts.get ⟨i, hi⟩).2 := by
  have hxs : (pts.map Prod.fst).Pairwise (· < ·) := by
    rw [List.pairwise_map]
    exact hx
  have hleni : i < (pts.map Prod.fst).length := by simpa using hi
  have hget : (pts.map Prod.fst).get ⟨i, hleni⟩ = (pts.get ⟨i, hi⟩).1 := by
    simp [List.get_map]
  have hss : searchsortedLeft (pts.map Prod.fst) (pts.get ⟨i, hi⟩).1 = i := by
    rw [← hget]
    exact searchsortedLeft_get _ hxs i hleni
  simp only [interp1dEval, hss]
  cases i with
  | zero =>
    have hidx : min (max 0 1) (pts.length - 1) = 1 := by omega
    rw [hidx]
    have h0 : pts.getD (1 - 1) (0, 0) = pts.get ⟨0, hi⟩ := by
      exact List.getD_eq_get pts (0, 0) hi
    rw [h0]
    ring
  | succ j =>
    have hj : j < pts.length := by omega
    have hidx : min (max (j + 1) 1) (pts.length - 1) = j + 1 := by omega
    rw [hidx]
    have hlo : pts.getD (j + 1 - 1) (0, 0) = pts.get ⟨j, hj⟩ := by
      exact List.getD_eq_get pts (0, 0) hj
    have hhi : pts.getD (j + 1) (0, 0) = pts.get ⟨j + 1, hi⟩ :=
      List.getD_eq_get pts (0, 0) hi
    have hlt : (pts.get ⟨j, hj⟩).1 < (pts.get ⟨j + 1, hi⟩).1 := by
      have := List.pairwise_iff_get.mp hx ⟨j, hj⟩ ⟨j + 1, hi⟩ (by simp)
      exact this
    have hne : (pts.get ⟨j + 1, hi⟩).1 - (pts.get ⟨j, hj⟩).1 ≠ 0 :=
      sub_ne_zero_of_ne (ne_of_gt hlt)
    rw [hlo, hhi]
    have hcancel : ∀ (a b x y : ℚ), b - a ≠ 0 →
        x + (b - a) * ((y - x) / (b - a)) = y := by
      intro a b x y h
      field_simp
    exact hcancel _ _ _ _ hne

/-- C3 amended: the calibration roundtrip
`wavelength_to_pixel (pixel_to_wavelength p) = p` holds exactly at every
integer pixel, (i) for a linear calibration `[c0, c1]` whenever `c1 ≠ 0`,
and (ii) for calibrations with three or more coefficients whenever the
forward map is strictly increasing over the dense pixel table `[0, width)`
and `width ≥ 2` — the inversion then evaluates the interpolant at one of its
own sample points.  (For non-injective calibrations, such as `[c0, 0]`, no
inverse can exist; see the counterexample.) -/
theorem wavelength_pixel_roundtrip :
    (∀ (c0 c1 : ℚ) (ow : Option Nat) (p : Nat), c1 ≠ 0 →
        wavelength_to_pixel [c0, c1] ow (pixel_to_wavelength [c0, c1] (p : ℚ))
          = Except.ok (p : Int))
    ∧ (∀ (coeffs : List ℚ) (width p : Nat), 3 ≤ coeffs.length → 2 ≤ width → p < width →
        ((List.range width).map
            (fun q : Nat => pixel_to_wavelength coeffs (q : ℚ))).Pairwise (· < ·) →
        wavelength_to_pixel coeffs (some width) (pixel_to_wavelength coeffs (p : ℚ))
          = Except.ok (p : Int)) := by
  constructor
  · intro c0 c1 ow p hc1
    have hptw : pixel_to_wavelength [c0, c1] (p : ℚ) = c0 + c1 * p := by
      simp [pixel_to_wavelength, polyTermSum]
    have hdiv : (c0 + c1 * (p : ℚ) - c0) / c1 = (p : ℚ) := by
      field_simp
    have hif1 : ¬([c0, c1].length ≤ 1) := by simp
    have hif2 : [c0, c1].length = 2 := rfl
    simp only [wavelength_to_pixel, if_neg hif1, if_pos hif2]
    show Except.ok (npRound ((pixel_to_wavelength [c0, c1] (p : ℚ) - c0) / c1))
        = Except.ok (p : Int)
    rw [hptw, hdiv, npRound_natCast]
  · intro coeffs width p h3 hw hp hmono
    have hne1 : ¬(coeffs.length ≤ 1) := by omega
    have hne2 : ¬(coeffs.length = 2) := by omega
    have hw0 : ¬(width = 0) := by omega
    have hw2 : ¬(width < 2) := by omega
    simp only [wavelength_to_pixel, if_neg hne1, if_neg hne2, if_neg hw0, if_neg hw2]
    have hpair := pairwise_fst_zip _ ((List.range width).map (fun q : Nat => (q : ℚ))) hmono
    have hsorted := sortByFst_of_pairwise _ hpair
    have hlen : (((List.range width).map
          (fun q : Nat => pixel_to_wavelength coeffs (q : ℚ))).zip
        ((List.range width).map (fun q : Nat => (q : ℚ)))).length = width := by
      simp
    have hpi : p < (((List.range width).map
          (fun q : Nat => pixel_to_wavelength coeffs (q : ℚ))).zip
        ((List.range width).map (fun q : Nat => (q : ℚ)))).length := by
      rw [hlen]
      exact hp
    have hp1 : p < ((List.range width).map
        (fun q : Nat => pixel_to_wavelength coeffs (q : ℚ))).length := by simp [hp]
    have hp2 : p < ((List.range width).map (fun q : Nat => (q : ℚ))).length := by simp [hp]
    have hget1 : ((((List.range width).map
          (fun q : Nat => pixel_to_wavelength coeffs (q : ℚ))).zip
        ((List.range width).map (fun q : Nat => (q : ℚ)))).get ⟨p, hpi⟩).1
        = pixel_to_wavelength coeffs (p : ℚ) := by
      rw [List.get_zip]
      simp [List.get_map, List.get_range]
    have hget2 : ((((List.range width).map
          (fun q : Nat => pixel_to_wavelength coeffs (q : ℚ))).zip
        ((List.range width).map (fun q : Nat => (q : ℚ)))).get ⟨p, hpi⟩).2
        = (p : ℚ) := by
      rw [List.get_zip]
      simp [List.get_map, List.get_range]
    have hnode := interp1dEval_node _ hpair (by rw [hlen]; exact hw) p hpi
    rw [hget1, hget2] at hnode
    rw [hsorted, hnode, npRound_natCast]

/-- C3 counterexample: the constant linear calibration `[0, 0]` has two
coefficients and maps every pixel of the width-2 ROI to the same wavelength,
so the claimed roundtrip cannot hold at both pixel 0 and pixel 1 — this
refutation is independent of how the division by the zero slope is
interpreted. -/
theorem roundtrip_counterexample :
    ¬ (wavelength_to_pixel [0, 0] (some 2)
          (pixel_to_wavelength [0, 0] ((0 : Nat) : ℚ)) = Except.ok ((0 : Nat) : Int)
       ∧ wavelength_to_pixel [0, 0] (some 2)
          (pixel_to_wavelength [0, 0] ((1 : Nat) : ℚ)) = Except.ok ((1 : Nat) : Int)) := by
  intro h
  have he : pixel_to_wavelength [0, 0] ((0 : Nat) : ℚ)
      = pixel_to_wavelength [0, 0] ((1 : Nat) : ℚ) := by
    norm_num [pixel_to_wavelength, polyTermSum]
  have h1 := h.1
  have h2 := h.2
  rw [he] at h1
  rw [h1] at h2
  simp at h2

/-- Witness for C3: both roundtrip conjuncts applied at concrete inputs —
the linear calibration [400, 1] at pixel 3, and the strictly increasing
quadratic calibration [0, 0, 1] over width 3 at pixel 2. -/
theorem wavelength_pixel_roundtrip_witness :
    ((1 : ℚ) ≠ 0
      ∧ wavelength_to_pixel [400, 1] (some 10)
          (pixel_to_wavelength [400, 1] ((3 : Nat) : ℚ)) = Except.ok ((3 : Nat) : Int))
    ∧ (3 ≤ ([0, 0, 1] : List ℚ).length ∧ 2 ≤ 3 ∧ 2 < 3
      ∧ ((List.range 3).map
          (fun q : Nat => pixel_to_wavelength [0, 0, 1] (q : ℚ))).Pairwise (· < ·)
      ∧ wavelength_to_pixel [0, 0, 1] (some 3)
          (pixel_to_wavelength [0, 0, 1] ((2 : Nat) : ℚ)) = Except.ok ((2 : Nat) : Int)) := by
  have hpw : ((List.range 3).map
      (fun q : Nat => pixel_to_wavelength [0, 0, 1] (q : ℚ))).Pairwise (· < ·) := by
    norm_num [List.range_succ, pixel_to_wavelength, polyTermSum, List.pairwise_cons]
  exact ⟨⟨by norm_num, wavelength_pixel_roundtrip.1 400 1 (some 10) 3 (by norm_num)⟩,
    ⟨by norm_num, by norm_num, by norm_num, hpw,
     wavelength_pixel_roundtrip.2 [0, 0, 1] 3 2 (by norm_num) (by norm_num) (by norm_num) hpw⟩⟩

end Spectro
